import Mathlib

/-!
Verification of the core experience/level conversion engine and statistic
aggregation layer of the osrs-hiscores-toolkit repository.

The XP table is loaded at runtime from a JSON array of integers; we model it
as an explicit `List Int` parameter.  Python code that can raise an uncaught
exception (`KeyError`, `IndexError`) is modelled with `Except Unit`, where
`.error ()` stands for the raised fault.  Floating-point arithmetic in the
combat-level formula is modelled with exact rationals (`ℚ`).
-/

namespace OsrsData

/-- `osrs_data.COMBAT_SKILLS` (identical list in `player_stats.py`). -/
def COMBAT_SKILLS : List String :=
  ["Attack", "Strength", "Defence", "Hitpoints", "Ranged", "Prayer", "Magic"]

/-- `osrs_data.MAX_XP = 200000000`. -/
def MAX_XP : Int := 200000000

/-- `osrs_data.MAX_VIRTUAL_LEVEL = 126`. -/
def MAX_VIRTUAL_LEVEL : Nat := 126

end OsrsData

/-- The descending scan of `get_level_for_xp` (both modules contain the same
loop `for level in range(len(xp_table), 0, -1): ...`): with fuel `n`, tries
levels `n, n-1, ..., 1` and returns the first level whose table entry
(at index `level - 1`) does not exceed `xp`; returns 1 when none qualifies. -/
def levelLoop (table : List Int) (xp : Int) : Nat → Nat
  | 0 => 1
  | n + 1 => if table.getD n 0 ≤ xp then n + 1 else levelLoop table xp n

/-- `get_level_for_xp(xp)` — textually identical in
`src/core_player_calculators.py` and `player_stats.py`: returns 1 on an empty
table, otherwise scans levels from `len(xp_table)` down to 1. -/
def get_level_for_xp (table : List Int) (xp : Int) : Nat :=
  if table.isEmpty then 1 else levelLoop table xp table.length

namespace CorePlayerCalculators

/-- `core_player_calculators.get_xp_for_level(level)`: `None` on an empty
table, `None` when `level` is outside `[1, MAX_VIRTUAL_LEVEL]`, otherwise
`xp_table[level - 1]` — which raises `IndexError` (modelled `.error ()`)
when `level - 1` is out of bounds for the loaded table. -/
def get_xp_for_level (table : List Int) (level : Int) : Except Unit (Option Int) :=
  if table.isEmpty then .ok none
  else if ¬(1 ≤ level ∧ level ≤ (OsrsData.MAX_VIRTUAL_LEVEL : Int)) then .ok none
  else
    match table.get? (level - 1).toNat with
    | some v => .ok (some v)
    | none => .error ()

/-- `core_player_calculators.calculate_xp_difference(start_xp, target_xp)`. -/
def calculate_xp_difference (start_xp : Int) (target_xp : Int) : Int :=
  target_xp - start_xp

/-- The arithmetic of `calculate_combat_level` once all seven levels are
extracted, in exact rational arithmetic; `math.floor` is `Int.floor`. -/
def combatFormula (attack strength defence hitpoints ranged prayer magic : Int) : ℚ :=
  let base : ℚ := 0.25 * ((defence : ℚ) + (hitpoints : ℚ) + (⌊(prayer : ℚ) * 0.5⌋ : ℤ))
  let melee_contribution : ℚ := 0.325 * ((attack : ℚ) + (strength : ℚ))
  let range_contribution : ℚ := 0.325 * (⌊(ranged : ℚ) * 1.5⌋ : ℤ)
  let magic_contribution : ℚ := 0.325 * (⌊(magic : ℚ) * 1.5⌋ : ℤ)
  let max_attack_contribution := max melee_contribution (max range_contribution magic_contribution)
  base + max_attack_contribution

/-- `core_player_calculators.calculate_combat_level(levels)`: the dict is a
partial map `String → Option Int`; `levels["Attack"]` etc. raise `KeyError`
(modelled `.error ()`) exactly when the key is absent. -/
def calculate_combat_level (levels : String → Option Int) : Except Unit ℚ :=
  match levels "Attack", levels "Strength", levels "Defence", levels "Hitpoints",
        levels "Ranged", levels "Prayer", levels "Magic" with
  | some attack, some strength, some defence, some hitpoints,
    some ranged, some prayer, some magic =>
      .ok (combatFormula attack strength defence hitpoints ranged prayer magic)
  | _, _, _, _, _, _, _ => .error ()

/-- `core_player_calculators.get_xp_for_next_level(current_xp)`: computes the
current level, returns `None` at or above `MAX_VIRTUAL_LEVEL`, otherwise the
difference to `get_xp_for_level(current_level + 1)` (propagating a possible
`IndexError` from the lookup). -/
def get_xp_for_next_level (table : List Int) (current_xp : Int) : Except Unit (Option Int) :=
  let current_level := get_level_for_xp table current_xp
  if current_level ≥ OsrsData.MAX_VIRTUAL_LEVEL then .ok none
  else
    match get_xp_for_level table ((current_level : Int) + 1) with
    | .error e => .error e
    | .ok none => .ok none
    | .ok (some xp_for_next) => .ok (some (calculate_xp_difference current_xp xp_for_next))

/-- `core_player_calculators.calculate_total_xp(xp_values)`:
`sum(xp for xp in xp_values if xp is not None and xp > 0)`. -/
def calculate_total_xp (xp_values : List (Option Int)) : Int :=
  (xp_values.filterMap (fun x =>
    match x with
    | some xp => if xp > 0 then some xp else none
    | none => none)).sum

end CorePlayerCalculators

namespace PlayerStats

/-- `player_stats.get_xp_for_next_level(current_xp)`: `None` on an empty
table; computes the current level, returns `None` at or above
`max_level = len(xp_table)`, otherwise `xp_table[current_level] - current_xp`. -/
def get_xp_for_next_level (table : List Int) (current_xp : Int) : Option Int :=
  if table.isEmpty then none
  else
    let current_level := get_level_for_xp table current_xp
    let max_level := table.length
    if current_level ≥ max_level then none
    else some (table.getD current_level 0 - current_xp)

/-- `player_stats.get_xp_to_level(current_xp, target_level)`: `None` on an
empty table or when not `1 < target_level <= len(xp_table)`; `0` when the
current XP already meets the target threshold; otherwise the shortfall. -/
def get_xp_to_level (table : List Int) (current_xp : Int) (target_level : Int) : Option Int :=
  if table.isEmpty then none
  else if ¬(1 < target_level ∧ target_level ≤ (table.length : Int)) then none
  else
    let xp_for_target := table.getD (target_level - 1).toNat 0
    if current_xp ≥ xp_for_target then some 0
    else some (xp_for_target - current_xp)

end PlayerStats

/-- A level dictionary with all seven combat skills at 99. -/
def maxedLevels : String → Option Int := fun s =>
  if s ∈ OsrsData.COMBAT_SKILLS then some 99 else none

/-- The mixed build `{Attack 75, Strength 75, Defence 75, Hitpoints 75,
Ranged 1, Prayer 1, Magic 1}`. -/
def mixedLevels : String → Option Int := fun s =>
  if s = "Attack" ∨ s = "Strength" ∨ s = "Defence" ∨ s = "Hitpoints" then some 75
  else if s = "Ranged" ∨ s = "Prayer" ∨ s = "Magic" then some 1 else none

/-- A syntactically valid XP table (strictly increasing, first entry 0) with
127 entries: `[0, 1, ..., 126]`. -/
def exTable : List Int := (List.range 127).map Int.ofNat

/-- A table of length exactly `MAX_VIRTUAL_LEVEL = 126`: `[0, 1, ..., 125]`. -/
def exTable126 : List Int := (List.range 126).map Int.ofNat

set_option maxRecDepth 4000

/-! ### Helper lemmas about the descending level scan -/

theorem levelLoop_pos (table : List Int) (xp : Int) (n : Nat) :
    1 ≤ levelLoop table xp n := by
  induction n with
  | zero => simp [levelLoop]
  | succ m ih =>
    simp only [levelLoop]
    split
    · omega
    · exact ih

theorem levelLoop_le (table : List Int) (xp : Int) (n : Nat) :
    levelLoop table xp n ≤ max 1 n := by
  induction n with
  | zero => simp [levelLoop]
  | succ m ih =>
    simp only [levelLoop]
    split
    · omega
    · omega

theorem levelLoop_max (table : List Int) (xp : Int) :
    ∀ n m, m < n → table.getD m 0 ≤ xp → m < levelLoop table xp n := by
  intro n
  induction n with
  | zero => intro m hm _; omega
  | succ k ih =>
    intro m hm hle
    simp only [levelLoop]
    split
    · omega
    · rename_i hnot
      have hmk : m < k := by
        rcases Nat.lt_succ_iff_lt_or_eq.mp hm with h | h
        · exact h
        · exact absurd (h ▸ hle) hnot
      exact ih m hmk hle

theorem levelLoop_found (table : List Int) (xp : Int) :
    ∀ n, (∃ m, m < n ∧ table.getD m 0 ≤ xp) →
      table.getD (levelLoop table xp n - 1) 0 ≤ xp := by
  intro n
  induction n with
  | zero => rintro ⟨m, hm, _⟩; omega
  | succ k ih =>
    rintro ⟨m, hm, hle⟩
    simp only [levelLoop]
    split
    · rename_i hk
      simpa using hk
    · rename_i hnot
      apply ih
      refine ⟨m, ?_, hle⟩
      rcases Nat.lt_succ_iff_lt_or_eq.mp hm with h | h
      · exact h
      · exact absurd (h ▸ hle) hnot

theorem levelLoop_eq_of (table : List Int) (xp : Int) :
    ∀ n i, i < n → table.getD i 0 ≤ xp →
      (∀ j, i < j → j < n → xp < table.getD j 0) →
      levelLoop table xp n = i + 1 := by
  intro n
  induction n with
  | zero => intro i hi _ _; omega
  | succ k ih =>
    intro i hi hle hgt
    simp only [levelLoop]
    split
    · rename_i hk
      have hik : i = k := by
        by_contra hne
        exact absurd hk (not_le.mpr (hgt k (by omega) (Nat.lt_succ_self k)))
      omega
    · rename_i hnot
      have hik : i ≠ k := fun h => hnot (h ▸ hle)
      exact ih i (by omega) hle (fun j hj hjk => hgt j hj (by omega))

theorem levelLoop_eq_one (table : List Int) (xp : Int) :
    ∀ n, (∀ j, j < n → xp < table.getD j 0) → levelLoop table xp n = 1 := by
  intro n
  induction n with
  | zero => intro _; rfl
  | succ k ih =>
    intro hall
    simp only [levelLoop]
    split
    · rename_i hk
      exact absurd hk (not_le.mpr (hall k (Nat.lt_succ_self k)))
    · exact ih (fun j hj => hall j (by omega))

theorem get_level_for_xp_pos (table : List Int) (xp : Int) :
    1 ≤ get_level_for_xp table xp := by
  unfold get_level_for_xp
  split
  · omega
  · exact levelLoop_pos table xp table.length

theorem get_level_for_xp_le (table : List Int) (xp : Int) (h : table ≠ []) :
    get_level_for_xp table xp ≤ table.length := by
  have hlen : 1 ≤ table.length := List.length_pos.mpr h
  unfold get_level_for_xp
  split
  · omega
  · have := levelLoop_le table xp table.length
    omega

/-- In a strictly increasing table whose first entry is 0, every entry is
nonnegative. -/
theorem table_entry_nonneg (table : List Int)
    (hsorted : List.Chain' (· < ·) table) (hhead : table.head? = some 0) :
    ∀ j, j < table.length → 0 ≤ table.getD j 0 := by
  intro j hj
  have hpair : List.Pairwise (· < ·) table := List.chain'_iff_pairwise.mp hsorted
  have h0 : table.getD 0 0 = 0 := by
    cases table with
    | nil => simp at hhead
    | cons a l => simp at hhead ⊢; omega
  rcases Nat.eq_zero_or_pos j with h | h
  · rw [h, h0]
  · have h0j : table.getD 0 0 < table.getD j 0 := by
      rw [List.getD_eq_getElem _ _ (by omega), List.getD_eq_getElem _ _ hj]
      exact List.pairwise_iff_getElem.mp hpair 0 j (by omega) hj h
    omega

/-- In a strictly increasing table, entries at larger indices are strictly
larger. -/
theorem table_strict_mono (table : List Int)
    (hsorted : List.Chain' (· < ·) table) :
    ∀ i j, i < j → j < table.length → table.getD i 0 < table.getD j 0 := by
  intro i j hij hj
  have hpair : List.Pairwise (· < ·) table := List.chain'_iff_pairwise.mp hsorted
  rw [List.getD_eq_getElem _ _ (by omega), List.getD_eq_getElem _ _ hj]
  exact List.pairwise_iff_getElem.mp hpair i j (by omega) hj hij

/-! ### C1: combat level at the two specified inputs -/

/-- C1 counterexample: the code does **not** return 126.0 for the all-99
build, nor 97.5 for the mixed build `{75,75,75,75,1,1,1}` (values computed in
exact rational arithmetic; the claimed values are off by 0.1 and 11.25, far
beyond any floating-point rounding). -/
theorem C1_counterexample :
    CorePlayerCalculators.calculate_combat_level maxedLevels ≠ .ok (126.0 : ℚ) ∧
    CorePlayerCalculators.calculate_combat_level mixedLevels ≠ .ok (97.5 : ℚ) := by
  have hA : maxedLevels "Attack" = some 99 := rfl
  have hS : maxedLevels "Strength" = some 99 := rfl
  have hD : maxedLevels "Defence" = some 99 := rfl
  have hH : maxedLevels "Hitpoints" = some 99 := rfl
  have hR : maxedLevels "Ranged" = some 99 := rfl
  have hP : maxedLevels "Prayer" = some 99 := rfl
  have hM : maxedLevels "Magic" = some 99 := rfl
  have hA2 : mixedLevels "Attack" = some 75 := rfl
  have hS2 : mixedLevels "Strength" = some 75 := rfl
  have hD2 : mixedLevels "Defence" = some 75 := rfl
  have hH2 : mixedLevels "Hitpoints" = some 75 := rfl
  have hR2 : mixedLevels "Ranged" = some 1 := rfl
  have hP2 : mixedLevels "Prayer" = some 1 := rfl
  have hM2 : mixedLevels "Magic" = some 1 := rfl
  constructor
  · simp only [CorePlayerCalculators.calculate_combat_level, hA, hS, hD, hH, hR, hP, hM]
    norm_num [CorePlayerCalculators.combatFormula]
  · simp only [CorePlayerCalculators.calculate_combat_level, hA2, hS2, hD2, hH2, hR2, hP2, hM2]
    norm_num [CorePlayerCalculators.combatFormula]

/-- C1 amended: with all seven combat skills at level 99,
`calculate_combat_level` returns exactly 126.1, and for the mixed build
`{Attack 75, Strength 75, Defence 75, Hitpoints 75, Ranged 1, Prayer 1,
Magic 1}` it returns exactly 86.25 (exact rational arithmetic). -/
theorem C1_amended :
    CorePlayerCalculators.calculate_combat_level maxedLevels = .ok (126.1 : ℚ) ∧
    CorePlayerCalculators.calculate_combat_level mixedLevels = .ok (86.25 : ℚ) := by
  have hA : maxedLevels "Attack" = some 99 := rfl
  have hS : maxedLevels "Strength" = some 99 := rfl
  have hD : maxedLevels "Defence" = some 99 := rfl
  have hH : maxedLevels "Hitpoints" = some 99 := rfl
  have hR : maxedLevels "Ranged" = some 99 := rfl
  have hP : maxedLevels "Prayer" = some 99 := rfl
  have hM : maxedLevels "Magic" = some 99 := rfl
  have hA2 : mixedLevels "Attack" = some 75 := rfl
  have hS2 : mixedLevels "Strength" = some 75 := rfl
  have hD2 : mixedLevels "Defence" = some 75 := rfl
  have hH2 : mixedLevels "Hitpoints" = some 75 := rfl
  have hR2 : mixedLevels "Ranged" = some 1 := rfl
  have hP2 : mixedLevels "Prayer" = some 1 := rfl
  have hM2 : mixedLevels "Magic" = some 1 := rfl
  constructor
  · simp only [CorePlayerCalculators.calculate_combat_level, hA, hS, hD, hH, hR, hP, hM]
    norm_num [CorePlayerCalculators.combatFormula]
  · simp only [CorePlayerCalculators.calculate_combat_level, hA2, hS2, hD2, hH2, hR2, hP2, hM2]
    norm_num [CorePlayerCalculators.combatFormula]

/-! ### C2, C3, C4: level/XP conversion -/

theorem exTable_sorted : List.Chain' (· < ·) exTable := by
  rw [List.chain'_iff_pairwise]
  unfold exTable
  rw [List.pairwise_map' Int.ofNat]
  exact (List.pairwise_lt_range 127).imp (fun h => Int.ofNat_lt.mpr h)

theorem pair_sorted : List.Chain' (· < ·) ([0, 83] : List Int) := by
  simp

theorem table_getD_zero (table : List Int) (hhead : table.head? = some 0) :
    table.getD 0 0 = 0 := by
  cases table with
  | nil => simp at hhead
  | cons a l =>
    simp only [List.head?_cons, Option.some.injEq] at hhead
    simp [hhead]

theorem get?_eq_some_getD (l : List Int) (n : Nat) (h : n < l.length) :
    l.get? n = some (l.getD n 0) := by
  rw [List.getD_eq_getElem _ _ h, List.get?_eq_getElem?, List.getElem?_eq_getElem h]

/-- When the table is non-empty, `get_level_for_xp` is the descending scan. -/
theorem get_level_for_xp_eq_loop (table : List Int) (xp : Int) (h : table ≠ []) :
    get_level_for_xp table xp = levelLoop table xp table.length := by
  unfold get_level_for_xp
  rw [if_neg (by simpa [List.isEmpty_iff] using h)]

/-- C2 amended: for every strictly increasing table with first entry 0 and
every level `L` with `1 ≤ L ≤ table length` **and `L ≤ MAX_VIRTUAL_LEVEL`**,
`get_xp_for_level` returns a value and `get_level_for_xp` maps it back to
`L`. -/
theorem C2_amended (table : List Int) (hsorted : List.Chain' (· < ·) table)
    (hhead : table.head? = some 0) (L : Nat)
    (h1 : 1 ≤ L) (h2 : L ≤ table.length) (h3 : L ≤ OsrsData.MAX_VIRTUAL_LEVEL) :
    ∃ xp : Int, CorePlayerCalculators.get_xp_for_level table (L : Int) = .ok (some xp) ∧
      get_level_for_xp table xp = L := by
  have hne : table ≠ [] := by
    intro h; rw [h] at h2; simp at h2; omega
  have hidx : ((L : Int) - 1).toNat = L - 1 := by omega
  have hlt : L - 1 < table.length := by omega
  refine ⟨table.getD (L - 1) 0, ?_, ?_⟩
  · unfold CorePlayerCalculators.get_xp_for_level
    rw [if_neg (by simpa [List.isEmpty_iff] using hne)]
    rw [if_neg (not_not_intro ⟨by omega, by simp only [OsrsData.MAX_VIRTUAL_LEVEL] at h3 ⊢; omega⟩)]
    rw [hidx, get?_eq_some_getD table (L - 1) hlt]
  · rw [get_level_for_xp_eq_loop table _ hne]
    have hloop := levelLoop_eq_of table (table.getD (L - 1) 0) table.length (L - 1) hlt
      le_rfl (fun j hj hjlen => table_strict_mono table hsorted (L - 1) j hj hjlen)
    omega

/-- C2 counterexample: the table `[0, 1, ..., 126]` (127 entries) is
non-empty, strictly increasing with first entry 0, and `L = 127` lies within
`[1, max_level]`, yet the roundtrip fails: `get_xp_for_level` returns `None`
(its bound is the constant 126, not the table length), so no XP value exists
whose level maps back to 127. -/
theorem C2_counterexample :
    exTable ≠ [] ∧ List.Chain' (· < ·) exTable ∧ exTable.head? = some 0 ∧
    1 ≤ 127 ∧ 127 ≤ exTable.length ∧
    ¬∃ xp : Int, CorePlayerCalculators.get_xp_for_level exTable (127 : Int) = .ok (some xp) ∧
        get_level_for_xp exTable xp = 127 := by
  refine ⟨by decide, exTable_sorted, by rfl, by omega, by decide, ?_⟩
  rintro ⟨xp, hxp, -⟩
  have hnone : CorePlayerCalculators.get_xp_for_level exTable (127 : Int) = .ok none := by rfl
  rw [hnone] at hxp
  exact Option.noConfusion (Except.ok.inj hxp)

/-- C2 witness: at the table `[0, 83]` and `L = 2`, the roundtrip holds. -/
theorem C2_witness :
    ∃ xp : Int, CorePlayerCalculators.get_xp_for_level ([0, 83] : List Int) (2 : Int) = .ok (some xp) ∧
      get_level_for_xp ([0, 83] : List Int) xp = 2 :=
  C2_amended [0, 83] pair_sorted rfl 2 (by omega) (by decide) (by decide)

/-- C3 confirmed: on an empty table `get_level_for_xp` returns 1; on a
non-empty strictly increasing table with first entry 0 it returns 1 for
negative XP, and for nonnegative XP it returns the highest level `L` with
`table[L-1] ≤ xp` (in particular `1 ≤ L ≤ table length`). -/
theorem C3_level_for_xp (table : List Int) (xp : Int) :
    (table = [] → get_level_for_xp table xp = 1) ∧
    (table ≠ [] → List.Chain' (· < ·) table → table.head? = some 0 →
      ((xp < 0 → get_level_for_xp table xp = 1) ∧
       (0 ≤ xp →
          1 ≤ get_level_for_xp table xp ∧
          get_level_for_xp table xp ≤ table.length ∧
          table.getD (get_level_for_xp table xp - 1) 0 ≤ xp ∧
          ∀ M : Nat, 1 ≤ M → M ≤ table.length → table.getD (M - 1) 0 ≤ xp →
            M ≤ get_level_for_xp table xp))) := by
  constructor
  · intro h
    rw [h]
    rfl
  · intro hne hsorted hhead
    have hlen : 1 ≤ table.length := List.length_pos.mpr hne
    have hform := get_level_for_xp_eq_loop table xp hne
    constructor
    · intro hneg
      rw [hform]
      apply levelLoop_eq_one
      intro j hj
      have := table_entry_nonneg table hsorted hhead j hj
      omega
    · intro hpos
      have hex : ∃ m, m < table.length ∧ table.getD m 0 ≤ xp := by
        refine ⟨0, by omega, ?_⟩
        rw [table_getD_zero table hhead]
        exact hpos
      refine ⟨get_level_for_xp_pos table xp, get_level_for_xp_le table xp hne, ?_, ?_⟩
      · rw [hform]
        exact levelLoop_found table xp table.length hex
      · intro M hM1 hM2 hMle
        rw [hform]
        have := levelLoop_max table xp table.length (M - 1) (by omega) hMle
        omega

/-- C3 witness: on the table `[0, 83]` with `xp = 100`, the returned level is
exactly 2 (the highest level whose threshold does not exceed 100). -/
theorem C3_witness :
    2 ≤ get_level_for_xp ([0, 83] : List Int) 100 ∧
    get_level_for_xp ([0, 83] : List Int) 100 ≤ 2 := by
  have h := ((C3_level_for_xp [0, 83] 100).2 (by decide) pair_sorted rfl).2 (by omega)
  exact ⟨h.2.2.2 2 (by omega) (by decide) (by decide), h.2.1⟩

/-- C4 counterexample: on the table `[0, 1, ..., 126]` of length 127 the
level 127 is within `[1, max_level]`, yet `get_xp_for_level` returns `None`
rather than `table[126]` — the code bounds the level by the constant
`MAX_VIRTUAL_LEVEL = 126`, not by the table length. -/
theorem C4_counterexample :
    (1 : Int) ≤ 127 ∧ (127 : Int) ≤ (exTable.length : Int) ∧
    CorePlayerCalculators.get_xp_for_level exTable 127 = .ok none ∧
    CorePlayerCalculators.get_xp_for_level exTable 127 ≠ .ok (some (exTable.getD 126 0)) := by
  refine ⟨by omega, by decide, by rfl, ?_⟩
  intro h
  have hnone : CorePlayerCalculators.get_xp_for_level exTable 127 = .ok none := by rfl
  rw [hnone] at h
  exact Option.noConfusion (Except.ok.inj h)

/-- C4 amended: `get_xp_for_level` returns `None` on an empty table and when
the level lies outside `[1, MAX_VIRTUAL_LEVEL]` (the constant 126, **not**
the table length); for a level within `[1, 126]` it returns `table[level-1]`
when that index exists and raises an index fault when the table is shorter;
`get_xp_for_level(1) = 0` whenever the table's first entry is 0. -/
theorem C4_amended (table : List Int) (level : Int) :
    (table = [] → CorePlayerCalculators.get_xp_for_level table level = .ok none) ∧
    (¬(1 ≤ level ∧ level ≤ (OsrsData.MAX_VIRTUAL_LEVEL : Int)) →
      CorePlayerCalculators.get_xp_for_level table level = .ok none) ∧
    (table ≠ [] → 1 ≤ level → level ≤ (OsrsData.MAX_VIRTUAL_LEVEL : Int) →
      level ≤ (table.length : Int) →
      CorePlayerCalculators.get_xp_for_level table level =
        .ok (some (table.getD (level - 1).toNat 0))) ∧
    (table ≠ [] → 1 ≤ level → level ≤ (OsrsData.MAX_VIRTUAL_LEVEL : Int) →
      (table.length : Int) < level →
      CorePlayerCalculators.get_xp_for_level table level = .error ()) ∧
    (table.head? = some 0 →
      CorePlayerCalculators.get_xp_for_level table 1 = .ok (some 0)) := by
  refine ⟨?_, ?_, ?_, ?_, ?_⟩
  · intro h
    rw [h]
    rfl
  · intro h
    unfold CorePlayerCalculators.get_xp_for_level
    by_cases he : table.isEmpty
    · rw [if_pos he]
    · rw [if_neg he, if_pos h]
  · intro hne hl1 hl2 hllen
    unfold CorePlayerCalculators.get_xp_for_level
    rw [if_neg (by simpa [List.isEmpty_iff] using hne)]
    rw [if_neg (not_not_intro ⟨hl1, hl2⟩)]
    rw [get?_eq_some_getD table (level - 1).toNat (by omega)]
  · intro hne hl1 hl2 hlen
    unfold CorePlayerCalculators.get_xp_for_level
    rw [if_neg (by simpa [List.isEmpty_iff] using hne)]
    rw [if_neg (not_not_intro ⟨hl1, hl2⟩)]
    have : table.get? (level - 1).toNat = none := by
      rw [List.get?_eq_getElem?, List.getElem?_eq_none]
      omega
    rw [this]
  · intro hhead
    have hne : table ≠ [] := by
      intro h; rw [h] at hhead; simp at hhead
    unfold CorePlayerCalculators.get_xp_for_level
    rw [if_neg (by simpa [List.isEmpty_iff] using hne)]
    rw [if_neg (not_not_intro ⟨by omega, by simp [OsrsData.MAX_VIRTUAL_LEVEL]⟩)]
    have h0 : ((1 : Int) - 1).toNat = 0 := by omega
    rw [h0, get?_eq_some_getD table 0 (List.length_pos.mpr hne), table_getD_zero table hhead]

/-- C4 witness: on the table `[0, 83]`, level 2 yields 83 and level 1 yields
0. -/
theorem C4_witness :
    CorePlayerCalculators.get_xp_for_level ([0, 83] : List Int) 2 = .ok (some 83) ∧
    CorePlayerCalculators.get_xp_for_level ([0, 83] : List Int) 1 = .ok (some 0) :=
  ⟨(C4_amended [0, 83] 2).2.2.1 (by decide) (by omega) (by decide) (by decide),
   (C4_amended [0, 83] 1).2.2.2.2 rfl⟩

/-! ### C5, C6: XP to target level -/

/-- Let-free restatement of `get_xp_to_level` (definitional). -/
theorem get_xp_to_level_eq (table : List Int) (current_xp target_level : Int) :
    PlayerStats.get_xp_to_level table current_xp target_level =
      if table.isEmpty then none
      else if ¬(1 < target_level ∧ target_level ≤ (table.length : Int)) then none
      else if current_xp ≥ table.getD (target_level - 1).toNat 0 then some 0
      else some (table.getD (target_level - 1).toNat 0 - current_xp) := rfl

/-- C5 confirmed: `get_xp_to_level` returns `None` exactly on an empty table
or a target level outside `(1, max_level]`; for a valid target it returns 0
when the current XP meets the threshold and the positive shortfall
otherwise. -/
theorem C5_xp_to_level (table : List Int) (current_xp target_level : Int) :
    ((table = [] ∨ ¬(1 < target_level ∧ target_level ≤ (table.length : Int))) →
      PlayerStats.get_xp_to_level table current_xp target_level = none) ∧
    (table ≠ [] → 1 < target_level → target_level ≤ (table.length : Int) →
      (table.getD (target_level - 1).toNat 0 ≤ current_xp →
        PlayerStats.get_xp_to_level table current_xp target_level = some 0) ∧
      (current_xp < table.getD (target_level - 1).toNat 0 →
        PlayerStats.get_xp_to_level table current_xp target_level =
          some (table.getD (target_level - 1).toNat 0 - current_xp) ∧
        0 < table.getD (target_level - 1).toNat 0 - current_xp)) := by
  rw [get_xp_to_level_eq]
  constructor
  · rintro (h | h)
    · rw [if_pos (by simp [h])]
    · by_cases he : table.isEmpty
      · rw [if_pos he]
      · rw [if_neg he, if_pos h]
  · intro hne h1 h2
    have he : ¬table.isEmpty = true := by simpa [List.isEmpty_iff] using hne
    rw [if_neg he, if_neg (not_not_intro ⟨h1, h2⟩)]
    constructor
    · intro hle
      rw [if_pos hle]
    · intro hlt
      rw [if_neg (by omega)]
      exact ⟨rfl, by omega⟩

/-- C5 witness: on `[0, 83]`, target level 2 from 0 XP needs 83 XP. -/
theorem C5_witness :
    PlayerStats.get_xp_to_level ([0, 83] : List Int) 0 2 = some 83 ∧
    PlayerStats.get_xp_to_level ([0, 83] : List Int) 100 2 = some 0 := by
  have h1 := ((C5_xp_to_level [0, 83] 0 2).2 (by decide) (by omega) (by decide)).2 (by decide)
  have h2 := ((C5_xp_to_level [0, 83] 100 2).2 (by decide) (by omega) (by decide)).1 (by decide)
  exact ⟨h1.1, h2⟩

/-- C6 confirmed: once `get_xp_to_level` returns 0 for some XP and target, it
returns 0 for every XP at least as large (in particular for the same XP). -/
theorem C6_shortfall_stable (table : List Int) (xp target_level xp2 : Int)
    (h0 : PlayerStats.get_xp_to_level table xp target_level = some 0)
    (hle : xp ≤ xp2) :
    PlayerStats.get_xp_to_level table xp2 target_level = some 0 := by
  rw [get_xp_to_level_eq] at h0 ⊢
  by_cases he : table.isEmpty
  · rw [if_pos he] at h0
    exact Option.noConfusion h0
  · rw [if_neg he] at h0 ⊢
    by_cases hv : ¬(1 < target_level ∧ target_level ≤ (table.length : Int))
    · rw [if_pos hv] at h0
      exact Option.noConfusion h0
    · rw [if_neg hv] at h0 ⊢
      by_cases hge : xp ≥ table.getD (target_level - 1).toNat 0
      · rw [if_pos (by omega)]
      · rw [if_neg hge] at h0
        have := Option.some.inj h0
        omega

/-- C6 witness: `[0, 83]`, target 2: 100 XP satisfies the target, and so does
150 XP. -/
theorem C6_witness :
    PlayerStats.get_xp_to_level ([0, 83] : List Int) 150 2 = some 0 :=
  C6_shortfall_stable [0, 83] 100 2 150 (by decide) (by omega)

/-! ### C7: XP to next level (player_stats version) -/

/-- Let-free restatement of `player_stats.get_xp_for_next_level`
(definitional). -/
theorem ps_next_eq (table : List Int) (current_xp : Int) :
    PlayerStats.get_xp_for_next_level table current_xp =
      if table.isEmpty then none
      else if get_level_for_xp table current_xp ≥ table.length then none
      else some (table.getD (get_level_for_xp table current_xp) 0 - current_xp) := rfl

/-- The scan never stops at a level whose successor threshold is already
reached: if the returned level is below the table length, the XP is strictly
below the next threshold. -/
theorem get_level_for_xp_lt_next (table : List Int) (xp : Int) (hne : table ≠ [])
    (hlt : get_level_for_xp table xp < table.length) :
    xp < table.getD (get_level_for_xp table xp) 0 := by
  by_contra hc
  push_neg at hc
  have := levelLoop_max table xp table.length (get_level_for_xp table xp)
    (by omega) hc
  rw [← get_level_for_xp_eq_loop table xp hne] at this
  omega

/-- C7 confirmed (for the table-length bound of `player_stats`): the function
returns `None` exactly on an empty table or when the current level equals the
maximum level; otherwise it returns the threshold of the next level minus the
current XP, and that value is nonnegative in the valid domain. -/
theorem C7_next_level (table : List Int) (current_xp : Int)
    (hx0 : 0 ≤ current_xp) (hx1 : current_xp ≤ OsrsData.MAX_XP) :
    (table = [] → PlayerStats.get_xp_for_next_level table current_xp = none) ∧
    (table ≠ [] →
      (get_level_for_xp table current_xp = table.length →
        PlayerStats.get_xp_for_next_level table current_xp = none) ∧
      (get_level_for_xp table current_xp ≠ table.length →
        PlayerStats.get_xp_for_next_level table current_xp =
          some (table.getD (get_level_for_xp table current_xp) 0 - current_xp) ∧
        0 ≤ table.getD (get_level_for_xp table current_xp) 0 - current_xp)) := by
  rw [ps_next_eq]
  constructor
  · intro h
    rw [if_pos (by simp [h])]
  · intro hne
    have he : ¬table.isEmpty = true := by simpa [List.isEmpty_iff] using hne
    rw [if_neg he]
    have hL2 := get_level_for_xp_le table current_xp hne
    constructor
    · intro heq
      rw [if_pos (by omega)]
    · intro hneq
      have hlt : get_level_for_xp table current_xp < table.length := by omega
      rw [if_neg (by omega)]
      refine ⟨rfl, ?_⟩
      have := get_level_for_xp_lt_next table current_xp hne hlt
      omega

/-- C7 witness: on `[0, 83]` with 0 XP the next level needs 83 XP (a
nonnegative shortfall). -/
theorem C7_witness :
    PlayerStats.get_xp_for_next_level ([0, 83] : List Int) 0 =
      some (List.getD ([0, 83] : List Int) (get_level_for_xp ([0, 83] : List Int) 0) 0 - 0) ∧
    0 ≤ List.getD ([0, 83] : List Int) (get_level_for_xp ([0, 83] : List Int) 0) 0 - 0 :=
  ((C7_next_level [0, 83] 0 (by omega) (by decide)).2 (by decide)).2 (by decide)

/-! ### C8: combat level precondition -/

/-- C8 confirmed: `calculate_combat_level` raises a key fault exactly when one
of the seven required skills is absent from the input mapping, and returns a
number whenever all seven are present. -/
theorem C8_combat_level_precondition (levels : String → Option Int) :
    (CorePlayerCalculators.calculate_combat_level levels = .error () ↔
      levels "Attack" = none ∨ levels "Strength" = none ∨ levels "Defence" = none ∨
      levels "Hitpoints" = none ∨ levels "Ranged" = none ∨ levels "Prayer" = none ∨
      levels "Magic" = none) ∧
    ((levels "Attack" ≠ none ∧ levels "Strength" ≠ none ∧ levels "Defence" ≠ none ∧
      levels "Hitpoints" ≠ none ∧ levels "Ranged" ≠ none ∧ levels "Prayer" ≠ none ∧
      levels "Magic" ≠ none) →
      ∃ q : ℚ, CorePlayerCalculators.calculate_combat_level levels = .ok q) := by
  rcases hA : levels "Attack" with _ | a <;>
  rcases hS : levels "Strength" with _ | s <;>
  rcases hD : levels "Defence" with _ | d <;>
  rcases hH : levels "Hitpoints" with _ | h <;>
  rcases hR : levels "Ranged" with _ | r <;>
  rcases hP : levels "Prayer" with _ | p <;>
  rcases hM : levels "Magic" with _ | m <;>
  simp [CorePlayerCalculators.calculate_combat_level, hA, hS, hD, hH, hR, hP, hM]

/-- C8 witness: the all-99 mapping has every required key, and the calculator
returns a number on it. -/
theorem C8_witness :
    (maxedLevels "Attack" ≠ none ∧ maxedLevels "Strength" ≠ none ∧
     maxedLevels "Defence" ≠ none ∧ maxedLevels "Hitpoints" ≠ none ∧
     maxedLevels "Ranged" ≠ none ∧ maxedLevels "Prayer" ≠ none ∧
     maxedLevels "Magic" ≠ none) ∧
    ∃ q : ℚ, CorePlayerCalculators.calculate_combat_level maxedLevels = .ok q :=
  ⟨by decide, (C8_combat_level_precondition maxedLevels).2 (by decide)⟩

/-! ### C9: total XP aggregation -/

/-- C9 confirmed: `calculate_total_xp` sums exactly the present, strictly
positive entries, ignoring `None` and non-positive values; in particular it
maps `[100, None, 200, -50]` to 300 and `[]` to 0. -/
theorem C9_total_xp :
    (∀ xs : List (Option Int),
      CorePlayerCalculators.calculate_total_xp xs =
        ((xs.filterMap id).filter (fun v => 0 < v)).sum) ∧
    CorePlayerCalculators.calculate_total_xp [some 100, none, some 200, some (-50)] = 300 ∧
    CorePlayerCalculators.calculate_total_xp [] = 0 := by
  refine ⟨?_, by rfl, by rfl⟩
  intro xs
  induction xs with
  | nil => rfl
  | cons x tl ih =>
    cases x with
    | none =>
      simpa [CorePlayerCalculators.calculate_total_xp, List.filterMap_cons] using ih
    | some v =>
      simp only [CorePlayerCalculators.calculate_total_xp, List.filterMap_cons] at ih ⊢
      by_cases hv : 0 < v
      · simp [List.filter_cons, hv, ih]
      · simp [List.filter_cons, hv, ih, show ¬v > 0 from hv]

/-! ### C10: divergence of the two next-level implementations -/

/-- Restatement of `core_player_calculators.get_xp_for_next_level`
(definitional). -/
theorem core_next_eq (table : List Int) (current_xp : Int) :
    CorePlayerCalculators.get_xp_for_next_level table current_xp =
      if get_level_for_xp table current_xp ≥ OsrsData.MAX_VIRTUAL_LEVEL then .ok none
      else
        match CorePlayerCalculators.get_xp_for_level table
            ((get_level_for_xp table current_xp : Int) + 1) with
        | .error e => .error e
        | .ok none => .ok none
        | .ok (some xp_for_next) =>
            .ok (some (CorePlayerCalculators.calculate_xp_difference current_xp xp_for_next)) :=
  rfl

/-- C10 counterexample: on the strictly increasing table `[0, 1, ..., 126]`
of length 127 with 125 XP, the `player_stats` version answers `some 1`
(one XP to level 127) while the core version answers `None` (its bound is the
constant 126): the two implementations disagree. -/
theorem C10_counterexample :
    PlayerStats.get_xp_for_next_level exTable 125 = some 1 ∧
    CorePlayerCalculators.get_xp_for_next_level exTable 125 = .ok none ∧
    CorePlayerCalculators.get_xp_for_next_level exTable 125 ≠
      .ok (PlayerStats.get_xp_for_next_level exTable 125) := by
  refine ⟨by rfl, by rfl, ?_⟩
  intro h
  rw [show CorePlayerCalculators.get_xp_for_next_level exTable 125 = .ok none from rfl,
      show PlayerStats.get_xp_for_next_level exTable 125 = some 1 from rfl] at h
  exact Option.noConfusion (Except.ok.inj h)

/-- C10 amended: the two implementations agree on every table whose length
equals `MAX_VIRTUAL_LEVEL = 126` (the reference table) and every XP value. -/
theorem C10_amended (table : List Int) (current_xp : Int)
    (hlen : table.length = OsrsData.MAX_VIRTUAL_LEVEL) :
    CorePlayerCalculators.get_xp_for_next_level table current_xp =
      .ok (PlayerStats.get_xp_for_next_level table current_xp) := by
  simp only [OsrsData.MAX_VIRTUAL_LEVEL] at hlen
  have hne : table ≠ [] := by
    intro h
    rw [h] at hlen
    simp at hlen
  have he : ¬table.isEmpty = true := by simpa [List.isEmpty_iff] using hne
  have hL1 := get_level_for_xp_pos table current_xp
  have hL2 := get_level_for_xp_le table current_xp hne
  rw [core_next_eq, ps_next_eq, if_neg he]
  by_cases hcase : get_level_for_xp table current_xp ≥ OsrsData.MAX_VIRTUAL_LEVEL
  · simp only [OsrsData.MAX_VIRTUAL_LEVEL] at hcase
    rw [if_pos (by simp only [OsrsData.MAX_VIRTUAL_LEVEL]; omega), if_pos (by omega)]
  · simp only [OsrsData.MAX_VIRTUAL_LEVEL] at hcase
    rw [if_neg (by simp only [OsrsData.MAX_VIRTUAL_LEVEL]; omega), if_neg (by omega)]
    have hxp : CorePlayerCalculators.get_xp_for_level table
        ((get_level_for_xp table current_xp : Int) + 1) =
        .ok (some (table.getD (get_level_for_xp table current_xp) 0)) := by
      unfold CorePlayerCalculators.get_xp_for_level
      rw [if_neg he]
      rw [if_neg (not_not_intro
        ⟨by omega, by simp only [OsrsData.MAX_VIRTUAL_LEVEL]; omega⟩)]
      have hidx : ((get_level_for_xp table current_xp : Int) + 1 - 1).toNat =
          get_level_for_xp table current_xp := by omega
      rw [hidx, get?_eq_some_getD table _ (by omega)]
    rw [hxp]
    rfl

/-- C10 witness: both implementations agree on the 126-entry table
`[0, 1, ..., 125]` at 0 XP. -/
theorem C10_witness :
    exTable126.length = OsrsData.MAX_VIRTUAL_LEVEL ∧
    CorePlayerCalculators.get_xp_for_next_level exTable126 0 =
      .ok (PlayerStats.get_xp_for_next_level exTable126 0) :=
  ⟨by rfl, C10_amended exTable126 0 (by rfl)⟩
